/-
Verification of the diamond-score aggregation core against its design
document.  The definitions below are shallow embeddings of the TypeScript
source: pure functions model the stateless code, and the stateful pieces
(the per-source health records, the stale-data store, the per-connection
snapshot map) are modelled by explicit state passing.  Timestamps are
epoch milliseconds as `Int`; a parsed ISO time is its epoch value.
-/
import Mathlib

set_option autoImplicit false

/-! ## Core data model (src/lib/types.ts)

`Game` keeps the fields the embedded operations consult: the identifier,
the status, the scheduled start time, the scores and the live-situation
fields.  Fields never read by any embedded operation (teams, linescore,
pitchers, …) are omitted. -/
/-- Game status, from `type GameStatus` in the source. -/
inductive GameStatus where
  | scheduled
  | live
  | final
  | postponed
  | delayed
deriving DecidableEq

/-- Inning half, from `type InningHalf`.  The source's `end` literal is
spelled `end_` because `end` is a Lean keyword. -/
inductive InningHalf where
  | top
  | bottom
  | mid
  | end_
deriving DecidableEq

/-- Ball/strike/out count, from `interface Count`. -/
structure Count where
  balls : Nat
  strikes : Nat
  outs : Nat
deriving DecidableEq

/-- One contest, from `interface Game`.  `scheduledTime` is the parsed
epoch-milliseconds value of the ISO string. -/
structure Game where
  id : Nat
  status : GameStatus
  scheduledTime : Int
  homeScore : Nat
  awayScore : Nat
  currentInning : Option Nat := none
  inningHalf : Option InningHalf := none
  outs : Option Nat := none
  count : Option Count := none
deriving DecidableEq

/-- One provider's games for one date, from `interface LeagueGroup` in
src/lib/buildScores.ts.  The optional TS `stale?: boolean`, which the code
only ever sets to `true`, is modelled as a `Bool` that is `false` when the
field is absent. -/
structure LeagueGroup where
  id : Nat
  name : String
  country : String
  logoUrl : Option String := none
  games : List Game
  defaultCollapsed : Bool
  showTop25Filter : Bool
  error : Option String := none
  stale : Bool := false
deriving DecidableEq

/-- The aggregation result, from `interface ScoresResult`. -/
structure ScoresResult where
  date : String
  leagues : List LeagueGroup
  hasLive : Bool
deriving DecidableEq

/-- All games of a result, leagues flattened in order. -/
def gamesOf (s : ScoresResult) : List Game :=
  s.leagues.foldr (fun l acc => l.games ++ acc) []

/-! ## SourceHealthTracker (src/lib/buildScores.ts)

The TS code keeps a process-wide `Record<string, SourceHealth>` and mutates
the entry for one source.  Here `recordSuccess`/`recordFailure` are the
per-entry state transformers; `classify` (from the health route) takes the
looked-up entry, `none` standing for a source name missing from the map. -/
/-- Per-source health record, from `interface SourceHealth`. -/
structure SourceHealth where
  lastSuccessAt : Option Int
  lastErrorAt : Option Int
  lastError : Option String
  consecutiveFails : Nat
deriving DecidableEq

/-- The all-null starting record, from `initialHealth`. -/
def initialHealth : SourceHealth :=
  { lastSuccessAt := none, lastErrorAt := none, lastError := none,
    consecutiveFails := 0 }

/-- `recordSuccess` on one entry: stamp the time, reset the streak, clear
the error.  `now` is the `Date.now()` value. -/
def recordSuccess (now : Int) (h : SourceHealth) : SourceHealth :=
  { h with
      lastSuccessAt := some now
      consecutiveFails := 0
      lastError := none }

/-- `recordFailure` on one entry: stamp the time, keep the message, bump
the streak. -/
def recordFailure (now : Int) (err : String) (h : SourceHealth) : SourceHealth :=
  { h with
      lastErrorAt := some now
      lastError := some err
      consecutiveFails := h.consecutiveFails + 1 }

/-- Health classification values returned by `classify` in the health
route (the second handler in src/app/api/game/[id]/route.ts). -/
inductive HealthStatus where
  | healthy
  | degraded
  | down
  | unknown
deriving DecidableEq

/-- `classify` from the health route, on the looked-up record (`none` when
the source is not in the map):
never-succeeded sources are `down` as soon as they have any failure. -/
def classify (h : Option SourceHealth) : HealthStatus :=
  match h with
  | none => .unknown
  | some h =>
    if h.lastSuccessAt = none then
      (if h.consecutiveFails > 0 then .down else .unknown)
    else if h.consecutiveFails ≥ 3 then .down
    else if h.consecutiveFails > 0 then .degraded
    else .healthy

/-- `k` consecutive `recordFailure` calls (timestamps `ts`, messages `es`)
with no intervening success. -/
def applyFailures (ts : Nat → Int) (es : Nat → String) : Nat → SourceHealth → SourceHealth
  | 0, h => h
  | k + 1, h => recordFailure (ts k) (es k) (applyFailures ts es k h)

/-! ## Aggregator (src/lib/buildScores.ts)

`fetchSource` wraps each provider fetch, converting an exception into a
`{ ok: false }` record, so a pass is a pure function of the six settled
outcomes.  The process-wide `staleLeagues` map is keyed by date and the
pass only ever reads and writes the entry for its own date, so the store
is modelled by that single entry (`Option (List LeagueGroup)`): the pass
returns the result together with the entry's new value. -/
/-- Settled outcome of one `fetchSource` call: `{ ok: true; value }` or
`{ ok: false }`. -/
inductive FetchResult (α : Type) where
  | ok (value : α)
  | err
deriving DecidableEq

/-- The `.ok` discriminant of a settled outcome. -/
def FetchResult.isOk {α : Type} : FetchResult α → Bool
  | .ok _ => true
  | .err => false

/-- A MiLB level descriptor (`level.sportId`, `level.label`). -/
structure MilbLevel where
  sportId : Nat
  label : String
deriving DecidableEq

/-- The six settled per-source outcomes of one pass. -/
structure SourceOutcomes where
  mlb : FetchResult (List Game)
  milb : FetchResult (List (MilbLevel × List Game))
  ncaa : FetchResult (List Game)
  npb : FetchResult (List Game)
  kbo : FetchResult (List Game)
  wbc : FetchResult (List Game)
deriving DecidableEq

/-- JS truthiness of the `error` field: absent or the empty string is
falsy. -/
def errTruthy (e : Option String) : Bool :=
  match e with
  | none => false
  | some s => s != ""

/-- The MLB block: present when non-empty on success, error card on
failure. -/
def mlbSection (r : FetchResult (List Game)) : List LeagueGroup :=
  match r with
  | .ok gs =>
    if gs.length > 0 then
      [{ id := 1, name := "MLB", country := "USA",
         logoUrl := some "/logos/mlb.svg", games := gs,
         defaultCollapsed := true, showTop25Filter := false }]
    else []
  | .err =>
    [{ id := 1, name := "MLB", country := "USA",
       logoUrl := some "/logos/mlb.svg", games := [],
       defaultCollapsed := false, showTop25Filter := false,
       error := some "Data temporarily unavailable" }]

/-- The MiLB block: one league per level on success; failure is silent. -/
def milbSection (r : FetchResult (List (MilbLevel × List Game))) :
    List LeagueGroup :=
  match r with
  | .ok groups =>
    groups.map (fun lv =>
      { id := lv.1.sportId, name := lv.1.label, country := "USA",
        games := lv.2, defaultCollapsed := true, showTop25Filter := false })
  | .err => []

/-- The NPB block. -/
def npbSection (r : FetchResult (List Game)) : List LeagueGroup :=
  match r with
  | .ok gs =>
    if gs.length > 0 then
      [{ id := 2, name := "NPB", country := "Japan",
         logoUrl := some "/logos/npb.svg", games := gs,
         defaultCollapsed := false, showTop25Filter := false }]
    else []
  | .err =>
    [{ id := 2, name := "NPB", country := "Japan",
       logoUrl := some "/logos/npb.svg", games := [],
       defaultCollapsed := false, showTop25Filter := false,
       error := some "Data temporarily unavailable" }]

/-- The KBO block. -/
def kboSection (r : FetchResult (List Game)) : List LeagueGroup :=
  match r with
  | .ok gs =>
    if gs.length > 0 then
      [{ id := 3, name := "KBO", country := "South Korea",
         logoUrl := some "/logos/kbo.svg", games := gs,
         defaultCollapsed := false, showTop25Filter := false }]
    else []
  | .err =>
    [{ id := 3, name := "KBO", country := "South Korea",
       logoUrl := some "/logos/kbo.svg", games := [],
       defaultCollapsed := false, showTop25Filter := false,
       error := some "Data temporarily unavailable" }]

/-- The NCAA block. -/
def ncaaSection (r : FetchResult (List Game)) : List LeagueGroup :=
  match r with
  | .ok gs =>
    if gs.length > 0 then
      [{ id := 16, name := "College Baseball", country := "USA",
         games := gs, defaultCollapsed := true, showTop25Filter := true }]
    else []
  | .err =>
    [{ id := 16, name := "College Baseball", country := "USA",
       games := [], defaultCollapsed := true, showTop25Filter := true,
       error := some "Data temporarily unavailable" }]

/-- The WBC block: shown only when games exist; failure is silent. -/
def wbcSection (r : FetchResult (List Game)) : List LeagueGroup :=
  match r with
  | .ok gs =>
    if gs.length > 0 then
      [{ id := 20, name := "World Baseball Classic",
         country := "International", games := gs,
         defaultCollapsed := false, showTop25Filter := false }]
    else []
  | .err => []

/-- The leagues in their fixed emission order (MLB, MiLB levels, NPB, KBO,
NCAA, WBC), before stale substitution. -/
def baseLeagues (o : SourceOutcomes) : List LeagueGroup :=
  mlbSection o.mlb ++ milbSection o.milb ++ npbSection o.npb ++
    kboSection o.kbo ++ ncaaSection o.ncaa ++ wbcSection o.wbc

/-- Stale substitution for one emitted league: when it carries an error
and the previous pass stored a non-empty league with the same id,
substitute those games, mark it stale and soften the error text. -/
def staleFix (prev : Option (List LeagueGroup)) (l : LeagueGroup) : LeagueGroup :=
  match prev with
  | none => l
  | some prevLeagues =>
    if errTruthy l.error then
      match prevLeagues.find? (fun p => p.id == l.id) with
      | some sl =>
        if sl.games.length > 0 then
          { l with
              games := sl.games
              stale := true
              error := some "Data may be delayed" }
        else l
      | none => l
    else l

/-- `hasAnySuccess`: MLB, NPB, KBO or NCAA succeeded (MiLB and WBC do not
count). -/
def hasAnySuccess (o : SourceOutcomes) : Bool :=
  o.mlb.isOk || o.npb.isOk || o.kbo.isOk || o.ncaa.isOk

/-- One `buildScores(date)` pass as a function of the settled outcomes and
the stale-store entry for `date`; returns the result and the entry's new
value. -/
def buildScores (date : String) (o : SourceOutcomes)
    (prev : Option (List LeagueGroup)) :
    ScoresResult × Option (List LeagueGroup) :=
  let leagues := (baseLeagues o).map (staleFix prev)
  let store :=
    if hasAnySuccess o then
      some (leagues.filter (fun l => !errTruthy l.error))
    else prev
  let hasLive :=
    leagues.any (fun l => l.games.any (fun g => g.status == GameStatus.live))
  ({ date := date, leagues := leagues, hasLive := hasLive }, store)

/-- A sample finished game used in concrete scenarios. -/
def gSample : Game :=
  { id := 101, status := .final, scheduledTime := 0, homeScore := 4,
    awayScore := 2 }

/-- The error card emitted for a failed MLB fetch. -/
def mlbErrorLeague : LeagueGroup :=
  { id := 1, name := "MLB", country := "USA",
    logoUrl := some "/logos/mlb.svg", games := [],
    defaultCollapsed := false, showTop25Filter := false,
    error := some "Data temporarily unavailable" }

/-- The error card emitted for a failed NPB fetch. -/
def npbErrorLeague : LeagueGroup :=
  { id := 2, name := "NPB", country := "Japan",
    logoUrl := some "/logos/npb.svg", games := [],
    defaultCollapsed := false, showTop25Filter := false,
    error := some "Data temporarily unavailable" }

/-- The error card emitted for a failed KBO fetch. -/
def kboErrorLeague : LeagueGroup :=
  { id := 3, name := "KBO", country := "South Korea",
    logoUrl := some "/logos/kbo.svg", games := [],
    defaultCollapsed := false, showTop25Filter := false,
    error := some "Data temporarily unavailable" }

/-- The error card emitted for a failed NCAA fetch. -/
def ncaaErrorLeague : LeagueGroup :=
  { id := 16, name := "College Baseball", country := "USA", games := [],
    defaultCollapsed := true, showTop25Filter := true,
    error := some "Data temporarily unavailable" }

/-- The error-free NPB league a successful pass stores: used to exercise
the stale fallback across two passes. -/
def npbStoredLeague : LeagueGroup :=
  { id := 2, name := "NPB", country := "Japan",
    logoUrl := some "/logos/npb.svg", games := [gSample],
    defaultCollapsed := false, showTop25Filter := false }

/-! ## LiveUpdateChannel (the live-stream route, third handler in
src/app/robots.ts)

`snapshotGame` serialises the volatile projection of a game; since the
serialised record has a fixed shape, string equality of two serialisations
coincides with equality of the projections, which is what `GameSnapshot`
models.  The per-connection `Map<number, GameSnapshot>` is modelled as an
association list with JS `Map.get`/`Map.set` semantics. -/
/-- The comparable projection of a game's volatile fields.  Note the
source reads `outs` from `g.count?.outs`, not from the top-level `outs`
field. -/
structure GameSnapshot where
  homeScore : Nat
  awayScore : Nat
  status : GameStatus
  currentInning : Option Nat
  inningHalf : Option InningHalf
  outs : Option Nat
deriving DecidableEq

/-- `snapshotGame`: project the volatile fields. -/
def snapshotGame (g : Game) : GameSnapshot :=
  { homeScore := g.homeScore, awayScore := g.awayScore, status := g.status,
    currentInning := g.currentInning, inningHalf := g.inningHalf,
    outs := g.count.map (fun c => c.outs) }

/-- The per-connection snapshot map. -/
abbrev Snapshots := List (Nat × GameSnapshot)

/-- JS `Map.get`. -/
def mapGet : Snapshots → Nat → Option GameSnapshot
  | [], _ => none
  | (k0, v0) :: rest, k => if k0 = k then some v0 else mapGet rest k

/-- JS `Map.set`: replace in place, or append a new entry. -/
def mapSet : Snapshots → Nat → GameSnapshot → Snapshots
  | [], k, v => [(k, v)]
  | (k0, v0) :: rest, k, v =>
    if k0 = k then (k, v) :: rest else (k0, v0) :: mapSet rest k v

/-- Messages the live-stream tick can emit. -/
inductive StreamMessage where
  | update (games : List Game) (hasLive : Bool)
  | ping (ts : Int)
deriving DecidableEq

/-- One step of the tick's diff loop: compare one game of the fresh
result with its snapshot entry; on mismatch collect it and store the new
projection. -/
def diffStep (acc : List Game × Snapshots) (g : Game) :
    List Game × Snapshots :=
  let prev := mapGet acc.2 g.id
  let curr := snapshotGame g
  if prev = some curr then acc
  else (acc.1 ++ [g], mapSet acc.2 g.id curr)

/-- The body of one live-stream tick: diff every game of the fresh result
against the snapshot map, then emit `update` with the changed games and
the fresh `hasLive`, or `ping` with the timestamp when nothing changed. -/
def tick (now : Int) (snaps : Snapshots) (scores : ScoresResult) :
    StreamMessage × Snapshots :=
  let out := (gamesOf scores).foldl diffStep ([], snaps)
  if out.1.length > 0 then (.update out.1 scores.hasLive, out.2)
  else (.ping now, out.2)

/-- Specification-side changed set: the games of the fresh result whose
volatile projection differs from the snapshot entry (games absent from
the snapshot count as changed). -/
def changedSpec (snaps : Snapshots) (gs : List Game) : List Game :=
  gs.filter (fun g => decide (mapGet snaps g.id ≠ some (snapshotGame g)))

/-- A later state of the sample game: score and status moved on. -/
def gSampleLater : Game :=
  { gSample with homeScore := 5, status := .live }

/-- A one-league fresh result containing only the moved-on sample game,
used to exercise one tick. -/
def tickFreshResult : ScoresResult :=
  { date := "2026-06-02"
    leagues := [{ id := 1, name := "MLB", country := "USA",
                  games := [gSampleLater], defaultCollapsed := true,
                  showTop25Filter := false }]
    hasLive := true }

/-- `isPreGame` from the live-stream route: scheduled, with a start time
strictly in the future and at most 30 minutes away. -/
def isPreGame (now : Int) (g : Game) : Bool :=
  if g.status ≠ GameStatus.scheduled then false
  else
    let msUntil := g.scheduledTime - now
    decide (msUntil > 0) && decide (msUntil ≤ 30 * 60 * 1000)

/-- `getInterval` from the live-stream route. -/
def getInterval (hasLive hasPreGame : Bool) : Nat :=
  if hasLive then 15000
  else if hasPreGame then 60000
  else 300000

/-- The delay `scheduleNext` arms for the next tick, as a function of the
current result. -/
def nextInterval (now : Int) (scores : ScoresResult) : Nat :=
  getInterval scores.hasLive
    (scores.leagues.any (fun l => l.games.any (isPreGame now)))

/-- Outcomes where only MLB succeeded, returning a single live game. -/
def oneLiveOutcomes : SourceOutcomes :=
  { mlb := .ok [{ id := 301, status := .live, scheduledTime := 0,
                  homeScore := 0, awayScore := 0 }]
    milb := .err
    ncaa := .err
    npb := .err
    kbo := .err
    wbc := .err }

/-! ## ReconnectingClient polling fallback (useLiveStream,
src/unnamed/part_000)

When `EventSource` is unavailable the hook polls `/api/scores`: a
successful poll hands the parsed result to `onInit` (which replaces the
local state wholesale) and re-arms with `data.hasLive ? 15000 : 300000`;
a failed poll keeps the state and re-arms with the fixed 30 s retry. -/
/-- One polling step: given the current local state and the settled fetch
outcome, produce the new state and the delay before the next poll. -/
def pollStep (state : Option ScoresResult)
    (r : Except String ScoresResult) : Option ScoresResult × Nat :=
  match r with
  | .ok data => (some data, if data.hasLive then 15000 else 300000)
  | .error _ => (state, 30000)

/-- Outcomes where only MLB succeeded, returning a single game scheduled
ten minutes out. -/
def preGameOutcomes : SourceOutcomes :=
  { mlb := .ok [{ id := 401, status := .scheduled, scheduledTime := 600000,
                  homeScore := 0, awayScore := 0 }]
    milb := .err
    ncaa := .err
    npb := .err
    kbo := .err
    wbc := .err }

/-! ## RetryExecutor (withRetry, src/unnamed/part_012)

The loop runs `attempt` from 1 to `retries + 1`; on an error at
`attempt ≤ retries` it sleeps `baseDelayMs * 2 ^ (attempt - 1)` and
continues; an error on the last attempt is rethrown.  `fn i` is the
settled outcome of the i-th invocation; the trace records the outcome,
the number of invocations, and the sleeps in order. -/
/-- Observable trace of one `withRetry` run. -/
structure RetryTrace (E T : Type) where
  result : Except E T
  attemptsUsed : Nat
  delays : List Nat

/-- The loop from invocation number `attempt` with `fuel` further
attempts allowed after the current one (`fuel = retries + 1 - attempt`). -/
def withRetryRun {E T : Type} (fn : Nat → Except E T) (baseDelayMs : Nat) :
    Nat → Nat → RetryTrace E T
  | attempt, 0 =>
    match fn attempt with
    | .ok v => { result := .ok v, attemptsUsed := attempt, delays := [] }
    | .error e => { result := .error e, attemptsUsed := attempt, delays := [] }
  | attempt, fuel + 1 =>
    match fn attempt with
    | .ok v => { result := .ok v, attemptsUsed := attempt, delays := [] }
    | .error _ =>
      let rest := withRetryRun fn baseDelayMs (attempt + 1) fuel
      { result := rest.result
        attemptsUsed := rest.attemptsUsed
        delays := baseDelayMs * 2 ^ (attempt - 1) :: rest.delays }

/-- `withRetry fn {retries, baseDelayMs}` as a trace. -/
def withRetry {E T : Type} (fn : Nat → Except E T)
    (retries baseDelayMs : Nat) : RetryTrace E T :=
  withRetryRun fn baseDelayMs 1 retries

/-- The backoff schedule: `baseDelayMs * 2 ^ i` for `i = 0, …, n - 1`. -/
def attemptDelays (baseDelayMs n : Nat) : List Nat :=
  (List.range n).map (fun i => baseDelayMs * 2 ^ i)

/-! ## GET /api/scores (src/app/api/scores/route.ts)

The route reads `searchParams.get('date') || today` (so a missing or
empty parameter falls back to today's date — JS `||` treats the empty
string as falsy), calls `buildScores(date)` and returns its JSON with
status 200.  The route performs no validation of the date parameter, and
its `catch`/500 branch is unreachable here because `buildScores` settles
every per-source failure internally and never rejects. -/
/-- The scores route as a function of the date parameter, today's date,
and the pass inputs; returns the HTTP status and the JSON body. -/
def scoresGET (dateParam : Option String) (today : String)
    (o : SourceOutcomes) (prev : Option (List LeagueGroup)) :
    Nat × ScoresResult :=
  let date :=
    match dateParam with
    | some d => if d = "" then today else d
    | none => today
  (200, (buildScores date o prev).1)

/-- Well-formedness of a `YYYY-MM-DD` date parameter, as the interface
section of the design document describes it. -/
def specWellFormedDate (s : String) : Bool :=
  match s.toList with
  | [y1, y2, y3, y4, h1, m1, m2, h2, d1, d2] =>
    y1.isDigit && y2.isDigit && y3.isDigit && y4.isDigit
      && (h1 == '-') && m1.isDigit && m2.isDigit && (h2 == '-')
      && d1.isDigit && d2.isDigit
  | _ => false

/-! ## Client update merge (handleUpdate in the scores view,
src/unnamed/part_016)

`handleUpdate(changedGames, hasLive)` builds
`new Map(changedGames.map(g => [g.id, g]))` (so with duplicate ids the
last entry wins) and maps every league's games through
`byId.get(g.id) ?? g`, replacing `hasLive` and keeping everything else;
with no current state (`prev == null`) the update is dropped. -/
/-- `byId.get k` for the map built from the changed games: the last
changed game carrying id `k`, if any. -/
def byIdGet (changed : List Game) (k : Nat) : Option Game :=
  changed.reverse.find? (fun g => g.id == k)

/-- The client's `handleUpdate` on the optional local state. -/
def handleUpdate (changed : List Game) (hasLive : Bool) :
    Option ScoresResult → Option ScoresResult
  | none => none
  | some prev =>
    some { prev with
             hasLive := hasLive
             leagues := prev.leagues.map (fun l =>
               { l with games := l.games.map (fun g =>
                   (byIdGet changed g.id).getD g) }) }

/-! ## Theorems -/

theorem applyFailures_consecutiveFails (ts : Nat → Int) (es : Nat → String)
    (k : Nat) (h : SourceHealth) :
    (applyFailures ts es k h).consecutiveFails = h.consecutiveFails + k := by
  induction k with
  | zero => rfl
  | succ k ih => simp [applyFailures, recordFailure, ih]; omega

theorem applyFailures_lastSuccessAt (ts : Nat → Int) (es : Nat → String)
    (k : Nat) (h : SourceHealth) :
    (applyFailures ts es k h).lastSuccessAt = h.lastSuccessAt := by
  induction k with
  | zero => rfl
  | succ k ih => simp [applyFailures, recordFailure, ih]

/-- Claim C1, as stated, is false on the code: a source that has never
succeeded and has exactly one consecutive failure classifies as `down`,
not `degraded` (and so `down` is not equivalent to `k ≥ 3` either). -/
theorem classify_one_fail_never_succeeded_is_down :
    classify (some (applyFailures (fun _ => 0) (fun _ => "e") 1 initialHealth))
        = HealthStatus.down
      ∧ HealthStatus.down ≠ HealthStatus.degraded
      ∧ 0 < 1 ∧ 1 < 3 := by
  refine ⟨rfl, by decide, by decide, by decide⟩

/-- Claim C1 (amended): after `k` consecutive failures starting from the
initial record or from any record just after a success, `classify` returns
`down` iff `k ≥ 3` or the source has never succeeded and `k > 0`;
`degraded` iff it has succeeded and `0 < k < 3`; `healthy` iff it has
succeeded and `k = 0`; `unknown` iff it has never succeeded and `k = 0`. -/
theorem classify_after_k_failures (ts : Nat → Int) (es : Nat → String)
    (k : Nat) (h0 : SourceHealth)
    (hstart : h0 = initialHealth ∨ ∃ t h', h0 = recordSuccess t h') :
    (classify (some (applyFailures ts es k h0)) = HealthStatus.down
        ↔ 3 ≤ k ∨ (h0.lastSuccessAt = none ∧ 0 < k))
    ∧ (classify (some (applyFailures ts es k h0)) = HealthStatus.degraded
        ↔ h0.lastSuccessAt ≠ none ∧ 0 < k ∧ k < 3)
    ∧ (classify (some (applyFailures ts es k h0)) = HealthStatus.healthy
        ↔ h0.lastSuccessAt ≠ none ∧ k = 0)
    ∧ (classify (some (applyFailures ts es k h0)) = HealthStatus.unknown
        ↔ h0.lastSuccessAt = none ∧ k = 0) := by
  have hfails : (applyFailures ts es k h0).consecutiveFails = k := by
    rcases hstart with h | ⟨t, h', h⟩ <;>
      simp [h, applyFailures_consecutiveFails, initialHealth, recordSuccess]
  have hsucc : (applyFailures ts es k h0).lastSuccessAt = h0.lastSuccessAt :=
    applyFailures_lastSuccessAt ts es k h0
  simp only [classify, hsucc, hfails, ge_iff_le, gt_iff_lt]
  rcases hLS : h0.lastSuccessAt with _ | t0 <;>
    by_cases h3 : 3 ≤ k <;> by_cases hk : 0 < k <;>
    simp [h3, hk] <;> omega

/-- Witness for claim C1 (amended) at `k = 2` after one success: the
source classifies as `degraded`. -/
theorem classify_after_k_failures_witness :
    classify (some (applyFailures (fun _ => 0) (fun _ => "e") 2
        (recordSuccess 5 initialHealth))) = HealthStatus.degraded := by
  have h := classify_after_k_failures (fun _ => 0) (fun _ => "e") 2
    (recordSuccess 5 initialHealth) (Or.inr ⟨5, initialHealth, rfl⟩)
  exact h.2.1.mpr (by decide)

theorem buildScores_leagues_eq (date : String) (o : SourceOutcomes)
    (prev : Option (List LeagueGroup)) :
    (buildScores date o prev).1.leagues = (baseLeagues o).map (staleFix prev) := rfl

/-- Stale substitution on an error-carrying league keeps its id, keeps the
error truthy (the text may be softened) and either leaves the games alone
or marks the league stale. -/
theorem staleFix_spec (prev : Option (List LeagueGroup)) (l : LeagueGroup)
    (he : errTruthy l.error = true) :
    (staleFix prev l).id = l.id
    ∧ errTruthy (staleFix prev l).error = true
    ∧ ((staleFix prev l).games = l.games ∨ (staleFix prev l).stale = true) := by
  unfold staleFix
  rcases prev with _ | pls
  · exact ⟨rfl, he, Or.inl rfl⟩
  · simp only [he, if_true]
    rcases hf : pls.find? (fun p => p.id == l.id) with _ | sl
    · simp [hf, he]
    · simp only [hf]
      by_cases hg : sl.games.length > 0
      · rw [if_pos hg]
        exact ⟨rfl, rfl, Or.inr rfl⟩
      · rw [if_neg hg]
        exact ⟨rfl, he, Or.inl rfl⟩

/-- Claim C2, as stated, is false on the code: with only the MiLB fetch
throwing and every other source succeeding, the pass resolves but no
league of the result carries an error record at all — the failing MiLB
source disappears silently instead of appearing with `error` set. -/
theorem buildScores_milb_failure_disappears :
    ((buildScores "2026-04-01"
        { mlb := .ok [gSample], milb := .err, ncaa := .ok [],
          npb := .ok [], kbo := .ok [], wbc := .ok [] } none).1.leagues.all
      (fun l => !errTruthy l.error)) = true
    ∧ ((buildScores "2026-04-01"
        { mlb := .ok [gSample], milb := .err, ncaa := .ok [],
          npb := .ok [], kbo := .ok [], wbc := .ok [] } none).1.leagues.map
      (fun l => l.id)) = [1] := by
  exact ⟨rfl, rfl⟩

/-- Claim C2 (amended): a pass is a total function of the six settled
outcomes (so it never rejects), and every failing source among MLB, NPB,
KBO and NCAA is represented in the result as a league with a truthy
`error`, whose games are empty unless stale substitution marked it stale;
a MiLB or WBC failure produces no league at all. -/
theorem buildScores_failing_sources_get_error_leagues (date : String)
    (o : SourceOutcomes) (prev : Option (List LeagueGroup)) :
    (o.mlb = .err → ∃ l ∈ (buildScores date o prev).1.leagues,
      l.id = 1 ∧ errTruthy l.error = true ∧ (l.games = [] ∨ l.stale = true))
    ∧ (o.npb = .err → ∃ l ∈ (buildScores date o prev).1.leagues,
      l.id = 2 ∧ errTruthy l.error = true ∧ (l.games = [] ∨ l.stale = true))
    ∧ (o.kbo = .err → ∃ l ∈ (buildScores date o prev).1.leagues,
      l.id = 3 ∧ errTruthy l.error = true ∧ (l.games = [] ∨ l.stale = true))
    ∧ (o.ncaa = .err → ∃ l ∈ (buildScores date o prev).1.leagues,
      l.id = 16 ∧ errTruthy l.error = true ∧ (l.games = [] ∨ l.stale = true)) := by
  have base : ∀ L : LeagueGroup, L ∈ baseLeagues o →
      errTruthy L.error = true →
      ∃ l ∈ (buildScores date o prev).1.leagues,
        l.id = L.id ∧ errTruthy l.error = true
          ∧ (l.games = L.games ∨ l.stale = true) := by
    intro L hmem he
    refine ⟨staleFix prev L, ?_, ?_⟩
    · rw [buildScores_leagues_eq]
      exact List.mem_map_of_mem (staleFix prev) hmem
    · obtain ⟨hid, herr, hg⟩ := staleFix_spec prev L he
      exact ⟨hid, herr, hg⟩
  refine ⟨?_, ?_, ?_, ?_⟩ <;> intro h
  · obtain ⟨l, hl, hid, herr, hg⟩ := base mlbErrorLeague
      (by simp [baseLeagues, mlbSection, h, mlbErrorLeague]) rfl
    exact ⟨l, hl, hid, herr, hg⟩
  · obtain ⟨l, hl, hid, herr, hg⟩ := base npbErrorLeague
      (by simp [baseLeagues, npbSection, h, npbErrorLeague]) rfl
    exact ⟨l, hl, hid, herr, hg⟩
  · obtain ⟨l, hl, hid, herr, hg⟩ := base kboErrorLeague
      (by simp [baseLeagues, kboSection, h, kboErrorLeague]) rfl
    exact ⟨l, hl, hid, herr, hg⟩
  · obtain ⟨l, hl, hid, herr, hg⟩ := base ncaaErrorLeague
      (by simp [baseLeagues, ncaaSection, h, ncaaErrorLeague]) rfl
    exact ⟨l, hl, hid, herr, hg⟩

/-- Witness for claim C2 (amended): with all four of MLB, NPB, KBO and
NCAA failing, each is represented by an error league. -/
theorem buildScores_failing_sources_get_error_leagues_witness :
    (∃ l ∈ (buildScores "2026-04-03"
        { mlb := .err, milb := .err, ncaa := .err, npb := .err,
          kbo := .err, wbc := .err } none).1.leagues,
      l.id = 1 ∧ errTruthy l.error = true ∧ (l.games = [] ∨ l.stale = true))
    ∧ (∃ l ∈ (buildScores "2026-04-03"
        { mlb := .err, milb := .err, ncaa := .err, npb := .err,
          kbo := .err, wbc := .err } none).1.leagues,
      l.id = 2 ∧ errTruthy l.error = true ∧ (l.games = [] ∨ l.stale = true))
    ∧ (∃ l ∈ (buildScores "2026-04-03"
        { mlb := .err, milb := .err, ncaa := .err, npb := .err,
          kbo := .err, wbc := .err } none).1.leagues,
      l.id = 3 ∧ errTruthy l.error = true ∧ (l.games = [] ∨ l.stale = true))
    ∧ (∃ l ∈ (buildScores "2026-04-03"
        { mlb := .err, milb := .err, ncaa := .err, npb := .err,
          kbo := .err, wbc := .err } none).1.leagues,
      l.id = 16 ∧ errTruthy l.error = true ∧ (l.games = [] ∨ l.stale = true)) := by
  have h := buildScores_failing_sources_get_error_leagues "2026-04-03"
    { mlb := .err, milb := .err, ncaa := .err, npb := .err,
      kbo := .err, wbc := .err } none
  exact ⟨h.1 rfl, h.2.1 rfl, h.2.2.1 rfl, h.2.2.2 rfl⟩

/-- Claim C3, as stated, is false on the code: in a pass where only MiLB
succeeded — emitting an error-free, non-empty league — `hasAnySuccess`
checks only MLB, NPB, KBO and NCAA, so nothing is persisted even though a
source succeeded. -/
theorem buildScores_milb_only_success_not_persisted :
    (buildScores "2026-04-02"
        { mlb := .err,
          milb := .ok [({ sportId := 11, label := "Triple-A" }, [gSample])],
          ncaa := .err, npb := .err, kbo := .err, wbc := .err } none).2 = none
    ∧ ((buildScores "2026-04-02"
        { mlb := .err,
          milb := .ok [({ sportId := 11, label := "Triple-A" }, [gSample])],
          ncaa := .err, npb := .err, kbo := .err, wbc := .err } none).1.leagues.any
      (fun l => decide (l.id = 11) && !errTruthy l.error && !l.games.isEmpty))
      = true := by
  exact ⟨rfl, rfl⟩

/-- Claim C3 (amended): the pass persists the error-free subset of the
emitted leagues to the stale store exactly when at least one of MLB, NPB,
KBO or NCAA succeeded (a MiLB or WBC success alone does not trigger
persistence); otherwise the store entry for the date is left unchanged. -/
theorem buildScores_persist_iff (date : String) (o : SourceOutcomes)
    (prev : Option (List LeagueGroup)) :
    (hasAnySuccess o = true →
      (buildScores date o prev).2
        = some ((buildScores date o prev).1.leagues.filter
            (fun l => !errTruthy l.error)))
    ∧ (hasAnySuccess o = false → (buildScores date o prev).2 = prev) := by
  constructor <;> intro h <;> simp [buildScores, h]

/-- Witness for claim C3 (amended): a pass where MLB succeeded persists
the error-free leagues. -/
theorem buildScores_persist_iff_witness :
    hasAnySuccess
        { mlb := .ok [gSample], milb := .err, ncaa := .err, npb := .err,
          kbo := .err, wbc := .err } = true
    ∧ (buildScores "2026-04-04"
        { mlb := .ok [gSample], milb := .err, ncaa := .err, npb := .err,
          kbo := .err, wbc := .err } none).2
      = some ((buildScores "2026-04-04"
          { mlb := .ok [gSample], milb := .err, ncaa := .err, npb := .err,
            kbo := .err, wbc := .err } none).1.leagues.filter
          (fun l => !errTruthy l.error)) := by
  exact ⟨rfl, (buildScores_persist_iff _ _ _).1 rfl⟩

/-- When the previous pass stored a non-empty league with the same id,
`staleFix` substitutes its games, sets `stale` and softens the error. -/
theorem staleFix_substitutes (pls : List LeagueGroup) (l sl : LeagueGroup)
    (he : errTruthy l.error = true)
    (hf : pls.find? (fun p => p.id == l.id) = some sl)
    (hg : sl.games.length > 0) :
    staleFix (some pls) l =
      { l with
          games := sl.games
          stale := true
          error := some "Data may be delayed" } := by
  unfold staleFix
  simp only [he, if_true, hf]
  rw [if_pos hg]

/-- Any emitted error-carrying league whose id has a non-empty entry in
the stale store comes back with the stored games, `stale = true` and the
softened message. -/
theorem buildScores_stale_substitution (date : String) (o : SourceOutcomes)
    (pls : List LeagueGroup) (sl : LeagueGroup) (L : LeagueGroup)
    (hmem : L ∈ baseLeagues o) (he : errTruthy L.error = true)
    (hf : pls.find? (fun p => p.id == L.id) = some sl)
    (hg : sl.games ≠ []) :
    ∃ l ∈ (buildScores date o (some pls)).1.leagues,
      l.id = L.id ∧ l.games = sl.games ∧ l.stale = true
        ∧ l.error = some "Data may be delayed" := by
  refine ⟨staleFix (some pls) L, ?_, ?_⟩
  · rw [buildScores_leagues_eq]
    exact List.mem_map_of_mem _ hmem
  · rw [staleFix_substitutes pls L sl he hf (List.length_pos.mpr hg)]
    exact ⟨rfl, rfl, rfl, rfl⟩

/-- Claim C4, as stated, is false on the code: after a fully successful
pass stored MiLB's games, a later pass in which the MiLB fetch fails
returns no MiLB league at all — a failed MiLB source gets no error card,
so the stale substitution (which only rewrites error-carrying leagues)
never reinstates its stored games. -/
theorem buildScores_stale_fallback_skips_milb :
    ((buildScores "2026-05-01"
        { mlb := .ok [gSample],
          milb := .ok [({ sportId := 11, label := "Triple-A" }, [gSample])],
          ncaa := .ok [], npb := .ok [], kbo := .ok [],
          wbc := .ok [] } none).2.getD []).any
      (fun l => decide (l.id = 11) && !l.games.isEmpty) = true
    ∧ ((buildScores "2026-05-01"
        { mlb := .ok [gSample], milb := .err, ncaa := .ok [], npb := .ok [],
          kbo := .ok [], wbc := .ok [] }
        (buildScores "2026-05-01"
          { mlb := .ok [gSample],
            milb := .ok [({ sportId := 11, label := "Triple-A" }, [gSample])],
            ncaa := .ok [], npb := .ok [], kbo := .ok [],
            wbc := .ok [] } none).2).1.leagues.all
      (fun l => decide (l.id ≠ 11))) = true := by
  exact ⟨rfl, rfl⟩

/-- Claim C4 (amended): for each of the four sources that emit an error
card — MLB (league 1), NPB (2), KBO (3), NCAA (16) — if the stale store
for the date holds a league with that id and non-empty games, then a pass
in which that source's fetch fails returns a league with that id carrying
the stored games, `stale = true`, and the softened delayed-data message;
MiLB and WBC, which fail silently, are never reinstated. -/
theorem buildScores_stale_fallback (date : String) (o : SourceOutcomes)
    (pls : List LeagueGroup) (sl : LeagueGroup) :
    (o.mlb = .err → pls.find? (fun p => p.id == 1) = some sl →
      sl.games ≠ [] →
      ∃ l ∈ (buildScores date o (some pls)).1.leagues,
        l.id = 1 ∧ l.games = sl.games ∧ l.stale = true
          ∧ l.error = some "Data may be delayed")
    ∧ (o.npb = .err → pls.find? (fun p => p.id == 2) = some sl →
      sl.games ≠ [] →
      ∃ l ∈ (buildScores date o (some pls)).1.leagues,
        l.id = 2 ∧ l.games = sl.games ∧ l.stale = true
          ∧ l.error = some "Data may be delayed")
    ∧ (o.kbo = .err → pls.find? (fun p => p.id == 3) = some sl →
      sl.games ≠ [] →
      ∃ l ∈ (buildScores date o (some pls)).1.leagues,
        l.id = 3 ∧ l.games = sl.games ∧ l.stale = true
          ∧ l.error = some "Data may be delayed")
    ∧ (o.ncaa = .err → pls.find? (fun p => p.id == 16) = some sl →
      sl.games ≠ [] →
      ∃ l ∈ (buildScores date o (some pls)).1.leagues,
        l.id = 16 ∧ l.games = sl.games ∧ l.stale = true
          ∧ l.error = some "Data may be delayed") := by
  refine ⟨?_, ?_, ?_, ?_⟩ <;> intro h hf hg
  · exact buildScores_stale_substitution date o pls sl mlbErrorLeague
      (by simp [baseLeagues, mlbSection, h, mlbErrorLeague]) rfl hf hg
  · exact buildScores_stale_substitution date o pls sl npbErrorLeague
      (by simp [baseLeagues, npbSection, h, npbErrorLeague]) rfl hf hg
  · exact buildScores_stale_substitution date o pls sl kboErrorLeague
      (by simp [baseLeagues, kboSection, h, kboErrorLeague]) rfl hf hg
  · exact buildScores_stale_substitution date o pls sl ncaaErrorLeague
      (by simp [baseLeagues, ncaaSection, h, ncaaErrorLeague]) rfl hf hg

/-- Witness for claim C4 (amended): a pass where only NPB succeeded stores
its league; the next pass, with NPB failing, serves the stored games
marked stale. -/
theorem buildScores_stale_fallback_witness :
    (buildScores "2026-05-02"
        { mlb := .err, milb := .err, ncaa := .err, npb := .ok [gSample],
          kbo := .err, wbc := .err } none).2 = some [npbStoredLeague]
    ∧ ∃ l ∈ (buildScores "2026-05-02"
        { mlb := .err, milb := .err, ncaa := .err, npb := .err,
          kbo := .err, wbc := .err } (some [npbStoredLeague])).1.leagues,
      l.id = 2 ∧ l.games = npbStoredLeague.games ∧ l.stale = true
        ∧ l.error = some "Data may be delayed" := by
  refine ⟨rfl, ?_⟩
  have h := buildScores_stale_fallback "2026-05-02"
    { mlb := .err, milb := .err, ncaa := .err, npb := .err,
      kbo := .err, wbc := .err } [npbStoredLeague] npbStoredLeague
  exact h.2.1 rfl rfl (by decide)

theorem mapGet_mapSet_self (m : Snapshots) (k : Nat) (v : GameSnapshot) :
    mapGet (mapSet m k v) k = some v := by
  induction m with
  | nil => simp [mapSet, mapGet]
  | cons p rest ih =>
    obtain ⟨k0, v0⟩ := p
    by_cases h : k0 = k <;> simp [mapSet, mapGet, h, ih]

theorem mapGet_mapSet_other (m : Snapshots) (k k' : Nat) (v : GameSnapshot)
    (h : k' ≠ k) : mapGet (mapSet m k v) k' = mapGet m k' := by
  induction m with
  | nil => simp [mapSet, mapGet, Ne.symm h]
  | cons p rest ih =>
    obtain ⟨k0, v0⟩ := p
    by_cases h0 : k0 = k
    · subst h0
      simp [mapSet, mapGet, Ne.symm h, h]
    · by_cases h1 : k0 = k' <;> simp [mapSet, mapGet, h, h0, h1, ih]

theorem changedSpec_subset (snaps : Snapshots) (gs : List Game) :
    ∀ g ∈ changedSpec snaps gs, g ∈ gs := by
  intro g hg
  exact List.mem_of_mem_filter hg

/-- The diff loop computes exactly the spec-side changed set and updates
the snapshot entry of each changed id to the fresh projection, leaving
all other entries alone.  The agreement hypothesis threads the invariant
that the evolving map still agrees with the initial one on the ids not
yet processed. -/
theorem diffFold_characterization (gs : List Game) (acc : List Game)
    (snaps snaps0 : Snapshots)
    (hnd : (gs.map Game.id).Nodup)
    (hagree : ∀ g ∈ gs, mapGet snaps g.id = mapGet snaps0 g.id) :
    (gs.foldl diffStep (acc, snaps)).1 = acc ++ changedSpec snaps0 gs
    ∧ ∀ k, mapGet (gs.foldl diffStep (acc, snaps)).2 k
        = (match (changedSpec snaps0 gs).find? (fun g => g.id == k) with
           | some g => some (snapshotGame g)
           | none => mapGet snaps k) := by
  induction gs generalizing acc snaps with
  | nil => simp [changedSpec]
  | cons g gs ih =>
    have hg : mapGet snaps g.id = mapGet snaps0 g.id :=
      hagree g (List.mem_cons_self g gs)
    have hnd' : (gs.map Game.id).Nodup := (List.nodup_cons.mp hnd).2
    have hgid : g.id ∉ gs.map Game.id := (List.nodup_cons.mp hnd).1
    by_cases hs : mapGet snaps0 g.id = some (snapshotGame g)
    · -- unchanged: the accumulator and map pass through untouched
      have hstep : diffStep (acc, snaps) g = (acc, snaps) := by
        simp [diffStep, hg, hs]
      have hspec : changedSpec snaps0 (g :: gs) = changedSpec snaps0 gs := by
        simp [changedSpec, hs]
      obtain ⟨h1, h2⟩ := ih acc snaps hnd'
        (fun g' hg' => hagree g' (List.mem_cons_of_mem g hg'))
      rw [List.foldl_cons, hstep, hspec]
      exact ⟨h1, h2⟩
    · -- changed: collect the game and store the fresh projection
      have hstep : diffStep (acc, snaps) g
          = (acc ++ [g], mapSet snaps g.id (snapshotGame g)) := by
        simp [diffStep, hg, hs]
      have hspec : changedSpec snaps0 (g :: gs)
          = g :: changedSpec snaps0 gs := by
        simp [changedSpec, hs]
      have hagree' : ∀ g' ∈ gs,
          mapGet (mapSet snaps g.id (snapshotGame g)) g'.id
            = mapGet snaps0 g'.id := by
        intro g' hg'
        have hne : g'.id ≠ g.id := by
          intro he
          exact hgid (he ▸ List.mem_map_of_mem Game.id hg')
        rw [mapGet_mapSet_other _ _ _ _ hne]
        exact hagree g' (List.mem_cons_of_mem g hg')
      obtain ⟨h1, h2⟩ := ih (acc ++ [g])
        (mapSet snaps g.id (snapshotGame g)) hnd' hagree'
      rw [List.foldl_cons, hstep, hspec]
      constructor
      · rw [h1, List.append_assoc]
        rfl
      · intro k
        rw [h2 k]
        by_cases hk : g.id = k
        · subst hk
          have hnone : (changedSpec snaps0 gs).find?
              (fun g' => g'.id == g.id) = none := by
            rw [List.find?_eq_none]
            intro g' hg'
            have : g'.id ≠ g.id := by
              intro he
              exact hgid (he ▸ List.mem_map_of_mem Game.id
                (changedSpec_subset snaps0 gs g' hg'))
            simpa using this
          simp [List.find?_cons, hnone, mapGet_mapSet_self]
        · have hcons : (g :: changedSpec snaps0 gs).find?
              (fun g' => g'.id == k)
              = (changedSpec snaps0 gs).find? (fun g' => g'.id == k) := by
            simp [List.find?_cons, hk]
          rw [hcons]
          rcases hf : (changedSpec snaps0 gs).find? (fun g' => g'.id == k)
            with _ | g'
          · simp [hf, mapGet_mapSet_other _ _ _ _ (fun h => hk h.symm)]
          · simp [hf]

/-- Claim C5: on a live-stream tick, each game of the fresh result is
compared against the per-connection snapshot on the volatile projection
only (scores, status, inning, half, outs — via `snapshotGame`); when at
least one game's projection changed, the tick emits `update` with exactly
the changed games plus the fresh `hasLive` and rewrites the snapshot
entries of exactly those ids to the fresh projections; when nothing
changed it emits `ping` carrying the timestamp.  Stated for fresh results
whose game ids are distinct. -/
theorem liveStream_tick_spec (now : Int) (snaps : Snapshots)
    (scores : ScoresResult)
    (hnd : ((gamesOf scores).map Game.id).Nodup) :
    (changedSpec snaps (gamesOf scores) ≠ [] →
      (tick now snaps scores).1
          = StreamMessage.update (changedSpec snaps (gamesOf scores))
              scores.hasLive
        ∧ ∀ k, mapGet (tick now snaps scores).2 k
            = (match (changedSpec snaps (gamesOf scores)).find?
                  (fun g => g.id == k) with
               | some g => some (snapshotGame g)
               | none => mapGet snaps k))
    ∧ (changedSpec snaps (gamesOf scores) = [] →
      (tick now snaps scores).1 = StreamMessage.ping now) := by
  obtain ⟨h1, h2⟩ := diffFold_characterization (gamesOf scores) [] snaps snaps
    hnd (fun _ _ => rfl)
  simp only [List.nil_append] at h1
  constructor
  · intro hne
    have hlen : ((gamesOf scores).foldl diffStep ([], snaps)).1.length > 0 := by
      rw [h1]
      exact List.length_pos.mpr hne
    constructor
    · simp only [tick]
      rw [if_pos hlen]
      simp [h1]
    · intro k
      simp only [tick]
      rw [if_pos hlen]
      exact h2 k
  · intro he
    have hlen : ¬ ((gamesOf scores).foldl diffStep ([], snaps)).1.length > 0 := by
      rw [h1, he]
      simp
    simp only [tick]
    rw [if_neg hlen]

/-- Witness for claim C5: one tracked game whose score changed produces an
`update` with exactly that game. -/
theorem liveStream_tick_spec_witness :
    ((gamesOf tickFreshResult).map Game.id).Nodup
    ∧ changedSpec [(101, snapshotGame gSample)] (gamesOf tickFreshResult) ≠ []
    ∧ (tick 999 [(101, snapshotGame gSample)] tickFreshResult).1
      = StreamMessage.update
          (changedSpec [(101, snapshotGame gSample)] (gamesOf tickFreshResult))
          true := by
  have h := liveStream_tick_spec 999 [(101, snapshotGame gSample)]
    tickFreshResult (by decide)
  exact ⟨by decide, by decide, (h.1 (by decide)).1⟩

theorem any_gamesOf (ls : List LeagueGroup) (p : Game → Bool) :
    (ls.foldr (fun l acc => l.games ++ acc) []).any p
      = ls.any (fun l => l.games.any p) := by
  induction ls with
  | nil => rfl
  | cons l ls ih => simp [List.any_append, ih]

/-- `hasLive` of a pass's result is exactly "some game of the result is
live". -/
theorem buildScores_hasLive_eq (date : String) (o : SourceOutcomes)
    (prev : Option (List LeagueGroup)) :
    (buildScores date o prev).1.hasLive
      = (gamesOf (buildScores date o prev).1).any
          (fun g => g.status == GameStatus.live) :=
  (any_gamesOf ((buildScores date o prev).1.leagues) _).symm

/-- Claim C6: on any result produced by a pass, the next tick delay is
15s when some game of the result is live; otherwise 60s when some game is
scheduled with a start strictly in the future and at most 30 minutes
away; otherwise 300s. -/
theorem liveStream_interval_policy (date : String) (o : SourceOutcomes)
    (prev : Option (List LeagueGroup)) (now : Int) :
    ((∃ g ∈ gamesOf (buildScores date o prev).1,
        g.status = GameStatus.live) →
      nextInterval now (buildScores date o prev).1 = 15000)
    ∧ ((¬ ∃ g ∈ gamesOf (buildScores date o prev).1,
        g.status = GameStatus.live) →
      (∃ g ∈ gamesOf (buildScores date o prev).1,
        g.status = GameStatus.scheduled ∧ 0 < g.scheduledTime - now
          ∧ g.scheduledTime - now ≤ 30 * 60 * 1000) →
      nextInterval now (buildScores date o prev).1 = 60000)
    ∧ ((¬ ∃ g ∈ gamesOf (buildScores date o prev).1,
        g.status = GameStatus.live) →
      (¬ ∃ g ∈ gamesOf (buildScores date o prev).1,
        g.status = GameStatus.scheduled ∧ 0 < g.scheduledTime - now
          ∧ g.scheduledTime - now ≤ 30 * 60 * 1000) →
      nextInterval now (buildScores date o prev).1 = 300000) := by
  have hlive : (buildScores date o prev).1.hasLive = true
      ↔ ∃ g ∈ gamesOf (buildScores date o prev).1,
        g.status = GameStatus.live := by
    rw [buildScores_hasLive_eq]
    simp [List.any_eq_true]
  have hpre : ((buildScores date o prev).1.leagues.any
        (fun l => l.games.any (isPreGame now))) = true
      ↔ ∃ g ∈ gamesOf (buildScores date o prev).1,
        g.status = GameStatus.scheduled ∧ 0 < g.scheduledTime - now
          ∧ g.scheduledTime - now ≤ 30 * 60 * 1000 := by
    rw [← any_gamesOf]
    simp only [List.any_eq_true]
    constructor
    · rintro ⟨g, hg, hp⟩
      refine ⟨g, hg, ?_⟩
      by_cases hst : g.status = GameStatus.scheduled <;>
        simp [isPreGame, hst] at hp
      exact ⟨hst, by omega, by omega⟩
    · rintro ⟨g, hg, hst, h0, h30⟩
      refine ⟨g, hg, ?_⟩
      simp [isPreGame, hst]
      omega
  refine ⟨?_, ?_, ?_⟩
  · intro h
    have hl : (buildScores date o prev).1.hasLive = true := hlive.mpr h
    simp [nextInterval, getInterval, hl]
  · intro hn hp
    have hl : (buildScores date o prev).1.hasLive = false := by
      rcases hx : (buildScores date o prev).1.hasLive
      · rfl
      · exact absurd (hlive.mp hx) hn
    simp [nextInterval, getInterval, hl, hpre.mpr hp]
  · intro hn hp
    have hl : (buildScores date o prev).1.hasLive = false := by
      rcases hx : (buildScores date o prev).1.hasLive
      · rfl
      · exact absurd (hlive.mp hx) hn
    have hp' : ((buildScores date o prev).1.leagues.any
        (fun l => l.games.any (isPreGame now))) = false := by
      rcases hx : ((buildScores date o prev).1.leagues.any
        (fun l => l.games.any (isPreGame now)))
      · rfl
      · exact absurd (hpre.mp hx) hp
    simp [nextInterval, getInterval, hl, hp']

/-- Witness for claim C6: a result with one live game gets a 15 s delay. -/
theorem liveStream_interval_policy_witness :
    (∃ g ∈ gamesOf (buildScores "2026-06-03" oneLiveOutcomes none).1,
      g.status = GameStatus.live)
    ∧ nextInterval 0 (buildScores "2026-06-03" oneLiveOutcomes none).1
        = 15000 := by
  refine ⟨by decide, ?_⟩
  exact (liveStream_interval_policy "2026-06-03" oneLiveOutcomes none 0).1
    (by decide)

/-- Claim C7, as stated, is false on the code: the polling fallback has no
60 s pre-game tier.  On a result with no live game but one scheduled ten
minutes from now, the claimed cadence is 60 s, yet `pollStep` re-arms at
300 s (it only consults `hasLive`). -/
theorem pollStep_ignores_pregame :
    (∃ g ∈ gamesOf (buildScores "2026-07-01" preGameOutcomes none).1,
      g.status = GameStatus.scheduled ∧ 0 < g.scheduledTime - 0
        ∧ g.scheduledTime - 0 ≤ 30 * 60 * 1000)
    ∧ (buildScores "2026-07-01" preGameOutcomes none).1.hasLive = false
    ∧ (pollStep none
        (.ok (buildScores "2026-07-01" preGameOutcomes none).1)).2 = 300000
    ∧ (300000 : Nat) ≠ 60000 := by
  exact ⟨by decide, rfl, rfl, by decide⟩

/-- Claim C7 (amended): when push is unavailable the client re-polls at
15 s when the fetched result has live games and 300 s otherwise (there is
no 60 s pre-game tier), replacing local state wholesale on every
successful poll, and retries after a fixed 30 s — keeping its state —
when a poll fails. -/
theorem pollStep_spec (state : Option ScoresResult) (d : ScoresResult)
    (e : String) :
    pollStep state (.ok d)
        = (some d, if d.hasLive then 15000 else 300000)
    ∧ pollStep state (.error e) = (state, 30000) :=
  ⟨rfl, rfl⟩

theorem withRetryRun_attempts_le {E T : Type} (fn : Nat → Except E T)
    (baseDelayMs : Nat) (fuel a : Nat) :
    (withRetryRun fn baseDelayMs a fuel).attemptsUsed ≤ a + fuel := by
  induction fuel generalizing a with
  | zero =>
    rcases h : fn a with e | v <;> simp [withRetryRun, h]
  | succ fuel ih =>
    rcases h : fn a with e | v
    · simp only [withRetryRun, h]
      have := ih (a + 1)
      omega
    · simp [withRetryRun, h]

theorem withRetryRun_first_success {E T : Type} (fn : Nat → Except E T)
    (baseDelayMs : Nat) (fuel a j : Nat) (v : T)
    (haj : a ≤ j) (hj : j ≤ a + fuel)
    (hfail : ∀ i, a ≤ i → i < j → ∃ e, fn i = .error e)
    (hok : fn j = .ok v) :
    withRetryRun fn baseDelayMs a fuel
      = { result := .ok v, attemptsUsed := j,
          delays := (List.range' a (j - a)).map
            (fun i => baseDelayMs * 2 ^ (i - 1)) } := by
  induction fuel generalizing a with
  | zero =>
    have : j = a := by omega
    subst this
    simp [withRetryRun, hok]
  | succ fuel ih =>
    by_cases he : j = a
    · subst he
      simp [withRetryRun, hok]
    · have haj' : a + 1 ≤ j := by omega
      obtain ⟨e, hfa⟩ := hfail a (le_refl a) (by omega)
      have hrest := ih (a + 1) haj' (by omega)
        (fun i hi1 hi2 => hfail i (by omega) hi2)
      simp only [withRetryRun, hfa, hrest]
      have hlen : j - a = (j - (a + 1)) + 1 := by omega
      rw [hlen, List.range'_succ, List.map_cons]

theorem withRetryRun_all_fail {E T : Type} (fn : Nat → Except E T)
    (baseDelayMs : Nat) (fuel a : Nat) (e : E)
    (hfail : ∀ i, a ≤ i → i < a + fuel → ∃ e', fn i = .error e')
    (hlast : fn (a + fuel) = .error e) :
    withRetryRun fn baseDelayMs a fuel
      = { result := .error e, attemptsUsed := a + fuel,
          delays := (List.range' a fuel).map
            (fun i => baseDelayMs * 2 ^ (i - 1)) } := by
  induction fuel generalizing a with
  | zero =>
    simp only [Nat.add_zero] at hlast
    simp [withRetryRun, hlast]
  | succ fuel ih =>
    obtain ⟨e', hfa⟩ := hfail a (le_refl a) (by omega)
    have hrest := ih (a + 1)
      (fun i hi1 hi2 => hfail i (by omega) (by omega))
      (by rw [show a + 1 + fuel = a + (fuel + 1) by omega]; exact hlast)
    simp only [withRetryRun, hfa, hrest]
    rw [List.range'_succ, List.map_cons]
    have : a + 1 + fuel = a + (fuel + 1) := by omega
    rw [this]

/-- The loop's sleeps starting at attempt 1 are exactly the
`attemptDelays` schedule. -/
theorem range'_delays_eq (base n : Nat) :
    (List.range' 1 n).map (fun i => base * 2 ^ (i - 1))
      = attemptDelays base n := by
  unfold attemptDelays
  rw [List.range'_eq_map_range, List.map_map]
  apply List.map_congr_left
  intro i hi
  simp

/-- Claim C8: `withRetry` invokes `fn` at most `retries + 1` times; it
stops at the first success and returns its value, having slept
`baseDelayMs * 2 ^ (i - 1)` between attempts `i` and `i + 1`; and when
every attempt throws it rethrows exactly the error of the last attempt
after the full schedule of `retries` sleeps. -/
theorem withRetry_spec {E T : Type} (fn : Nat → Except E T)
    (retries baseDelayMs : Nat) :
    (withRetry fn retries baseDelayMs).attemptsUsed ≤ retries + 1
    ∧ (∀ j v, 1 ≤ j → j ≤ retries + 1 →
        (∀ i, 1 ≤ i → i < j → ∃ e, fn i = .error e) → fn j = .ok v →
        withRetry fn retries baseDelayMs
          = { result := .ok v, attemptsUsed := j,
              delays := attemptDelays baseDelayMs (j - 1) })
    ∧ (∀ e, (∀ i, 1 ≤ i → i ≤ retries → ∃ e', fn i = .error e') →
        fn (retries + 1) = .error e →
        withRetry fn retries baseDelayMs
          = { result := .error e, attemptsUsed := retries + 1,
              delays := attemptDelays baseDelayMs retries }) := by
  refine ⟨?_, ?_, ?_⟩
  · have := withRetryRun_attempts_le fn baseDelayMs retries 1
    unfold withRetry
    omega
  · intro j v hj1 hj2 hfail hok
    unfold withRetry
    rw [withRetryRun_first_success fn baseDelayMs retries 1 j v
      hj1 (by omega) hfail hok]
    rw [range'_delays_eq]
  · intro e hfail hlast
    unfold withRetry
    rw [withRetryRun_all_fail fn baseDelayMs retries 1 e
      (fun i hi1 hi2 => hfail i hi1 (by omega))
      (by rw [show 1 + retries = retries + 1 by omega]; exact hlast)]
    rw [range'_delays_eq, Nat.add_comm 1 retries]

/-- Witness for claim C8 at `retries = 2`, `baseDelayMs = 100`, with `fn`
always throwing: exactly 3 invocations, sleeps of 100 ms then 200 ms, and
the last error rethrown. -/
theorem withRetry_spec_witness :
    (∀ i, 1 ≤ i → i ≤ 2 →
      ∃ e', (fun _ => (Except.error "boom" : Except String Nat)) i
        = .error e')
    ∧ withRetry (fun _ => (Except.error "boom" : Except String Nat)) 2 100
        = { result := .error "boom", attemptsUsed := 3,
            delays := attemptDelays 100 2 }
    ∧ attemptDelays 100 2 = [100, 200] := by
  refine ⟨fun i _ _ => ⟨"boom", rfl⟩, ?_, by decide⟩
  exact (withRetry_spec (fun _ => (Except.error "boom" : Except String Nat))
    2 100).2.2 "boom" (fun i _ _ => ⟨"boom", rfl⟩) rfl

/-- Claim C9, as stated, is false on the code: the route never validates
the date, so a malformed date parameter is handed to `buildScores` as-is
and the route still answers 200, not 400. -/
theorem scoresGET_malformed_date_returns_200 :
    specWellFormedDate "not-a-date" = false
    ∧ (scoresGET (some "not-a-date") "2026-10-11" preGameOutcomes none).1
        = 200
    ∧ (200 : Nat) ≠ 400 := by
  exact ⟨by decide, rfl, by decide⟩

/-- Claim C9 (amended): the route returns 200 with the aggregation result
for every date parameter, well-formed or not; a missing or empty
parameter falls back to today's date, and 400 is never returned. -/
theorem scoresGET_spec (dateParam : Option String) (today : String)
    (o : SourceOutcomes) (prev : Option (List LeagueGroup)) :
    (scoresGET dateParam today o prev).1 = 200
    ∧ (∀ d, dateParam = some d → d ≠ "" →
        (scoresGET dateParam today o prev).2 = (buildScores d o prev).1)
    ∧ (dateParam = none ∨ dateParam = some "" →
        (scoresGET dateParam today o prev).2
          = (buildScores today o prev).1) := by
  refine ⟨rfl, ?_, ?_⟩
  · intro d hd hne
    subst hd
    simp [scoresGET, hne]
  · rintro (hd | hd) <;> subst hd <;> simp [scoresGET]

/-- Witness for claim C9 (amended): a well-formed and a malformed request
both elicit a 200 whose body is the pass result for the given parameter. -/
theorem scoresGET_spec_witness :
    (scoresGET (some "2026-10-11") "2026-10-12" preGameOutcomes none).1 = 200
    ∧ (scoresGET (some "2026-10-11") "2026-10-12" preGameOutcomes none).2
        = (buildScores "2026-10-11" preGameOutcomes none).1 := by
  refine ⟨(scoresGET_spec (some "2026-10-11") "2026-10-12"
    preGameOutcomes none).1, ?_⟩
  exact (scoresGET_spec (some "2026-10-11") "2026-10-12"
    preGameOutcomes none).2.1 "2026-10-11" rfl (by decide)

theorem byIdGet_id (changed : List Game) (k : Nat) (c : Game)
    (h : byIdGet changed k = some c) : c.id = k := by
  have := List.find?_some h
  simpa using this

/-- Claim C10: an `update` merge replaces, in place, exactly those games
whose ids already occur in the current state (a changed game whose id
occurs nowhere is discarded, never added); league structure, league
order, every non-matching game, the league metadata and the result's
date are unchanged, and only `hasLive` is replaced; with no current
state the update is dropped. -/
theorem handleUpdate_spec (changed : List Game) (hasLive : Bool)
    (p : ScoresResult) :
    (∃ q, handleUpdate changed hasLive (some p) = some q
      ∧ q.date = p.date
      ∧ q.hasLive = hasLive
      ∧ List.Forall₂ (fun l l' : LeagueGroup =>
          l'.id = l.id ∧ l'.name = l.name ∧ l'.country = l.country
            ∧ l'.logoUrl = l.logoUrl ∧ l'.error = l.error
            ∧ l'.stale = l.stale
            ∧ l'.defaultCollapsed = l.defaultCollapsed
            ∧ l'.showTop25Filter = l.showTop25Filter
            ∧ List.Forall₂ (fun g g' : Game =>
                (∀ c, byIdGet changed g.id = some c → g' = c)
                  ∧ (byIdGet changed g.id = none → g' = g)
                  ∧ g'.id = g.id) l.games l'.games)
        p.leagues q.leagues)
    ∧ handleUpdate changed hasLive none = none := by
  refine ⟨⟨_, rfl, rfl, rfl, ?_⟩, rfl⟩
  rw [List.forall₂_map_right_iff, List.forall₂_same]
  intro l hl
  refine ⟨rfl, rfl, rfl, rfl, rfl, rfl, rfl, rfl, ?_⟩
  rw [List.forall₂_map_right_iff, List.forall₂_same]
  intro g hg
  refine ⟨?_, ?_, ?_⟩
  · intro c hc
    simp [hc]
  · intro hc
    simp [hc]
  · rcases hc : byIdGet changed g.id with _ | c
    · simp [hc]
    · simpa [hc] using byIdGet_id changed g.id c hc
